import Mathlib

/-!
# Verification of the dual-stream audio recorder core

Shallow embedding of the recorder core (`src/recorder`): the rate
reconciler (`record_multiple_spawner.rs`), the synchronizer merge step
(`multiple_w_resampler.rs`), the passthrough latency pre-fill
(`multiple_wo_resampler.rs`), the session state machine
(`mod.rs` / `helpers.rs`), and the mono downmix (`helpers.rs`).

External collaborators (cpal devices, stream configs) are modelled as an
environment record of deterministic query results; machine floats are
modelled exactly as unreduced fractions of naturals with IEEE-754
binary32 round-to-nearest-even.
-/

set_option maxRecDepth 100000

namespace AudioRecorder

/-! ## Rate reconciler (`record_multiple_spawner.rs`) -/

/-- Which of the two streams is resampled (`common.rs`). -/
inductive ResampleTargetStream where
  /-- Resample the input stream to achieve the output rate. -/
  | Input
  /-- Resample the output stream to achieve the input rate. -/
  | Output
  /-- No resampling. -/
  | None
deriving DecidableEq, Repr

/-- Rate reconciliation from `record_multiple` (`record_multiple_spawner.rs`,
lines 48-65): `match input_sample_rate.cmp(&output_sample_rate)`, yielding
`(resampler_target, target_rate, origin_rate)`. -/
def record_multiple_reconcile (input_sample_rate output_sample_rate : Nat) :
    ResampleTargetStream × Nat × Nat :=
  match compare input_sample_rate output_sample_rate with
  | .lt => (ResampleTargetStream.Output, input_sample_rate, output_sample_rate)
  | .eq => (ResampleTargetStream.None, input_sample_rate, output_sample_rate)
  | .gt => (ResampleTargetStream.Input, output_sample_rate, input_sample_rate)

/-! ## Synchronizer merge step (`multiple_w_resampler.rs`, lines 195-218)

The merge step pops up to `target_rate` samples from each side's ring
buffer into buffers pre-filled with `EQUILIBRIUM`, then interleaves them.
`pop_slice` on a ring buffer holding the FIFO list `q` fills the prefix of
the destination buffer with the first `min (q.length) n` queued samples. -/

/-- Result of `pop_slice` into a length-`n` buffer pre-filled with `fill`:
the queue's first `min q.length n` samples, then the untouched padding. -/
def pop_slice_filled {α : Type} (q : List α) (n : Nat) (fill : α) : List α :=
  q.take n ++ List.replicate (n - q.length) fill

/-- The interleaving loop `for (i, o) in input_buffer.iter().zip(output_buffer.iter())
{ data.push(*i); data.push(*o); }`. -/
def interleave {α : Type} : List α → List α → List α
  | a :: as, b :: bs => a :: b :: interleave as bs
  | _, _ => []

/-- One merge-step chunk: both sides popped (with equilibrium padding) and
interleaved, input first. -/
def merge_chunk {α : Type} (q_in q_out : List α) (target_rate : Nat) (eqv : α) : List α :=
  interleave (pop_slice_filled q_in target_rate eqv) (pop_slice_filled q_out target_rate eqv)

theorem pop_slice_filled_length {α : Type} (q : List α) (n : Nat) (fill : α) :
    (pop_slice_filled q n fill).length = n := by
  simp [pop_slice_filled]
  omega

theorem pop_slice_filled_getElem? {α : Type} (q : List α) (n : Nat) (fill : α)
    (i : Nat) (hi : i < n) :
    (pop_slice_filled q n fill)[i]? = if i < q.length then q[i]? else some fill := by
  unfold pop_slice_filled
  by_cases h : i < q.length
  · have hcond : i < (q.take n).length := by simp; omega
    rw [List.getElem?_append, if_pos hcond]
    simp [List.getElem?_take, hi, h]
  · have hcond : ¬ i < (q.take n).length := by simp; omega
    rw [List.getElem?_append, if_neg hcond]
    have hrep : i - (q.take n).length < n - q.length := by simp; omega
    simp only [h, if_false, List.getElem?_replicate, if_pos hrep]

theorem interleave_length {α : Type} :
    ∀ (a b : List α), (interleave a b).length = 2 * min a.length b.length := by
  intro a
  induction a with
  | nil => intro b; cases b <;> simp [interleave]
  | cons x as ih =>
    intro b
    cases b with
    | nil => simp [interleave]
    | cons y bs => simp [interleave, ih]; omega

theorem interleave_getElem?_even {α : Type} :
    ∀ (a b : List α) (i : Nat), a.length = b.length → i < a.length →
      (interleave a b)[2 * i]? = a[i]? := by
  intro a
  induction a with
  | nil => intro b i _ hi; simp at hi
  | cons x as ih =>
    intro b i hlen hi
    cases b with
    | nil => simp at hlen
    | cons y bs =>
      cases i with
      | zero => simp [interleave]
      | succ j =>
        have h2 : 2 * (j + 1) = (2 * j) + 1 + 1 := by omega
        rw [h2]
        simp only [interleave, List.getElem?_cons_succ]
        exact ih bs j (by simpa using hlen) (by simpa using hi)

theorem interleave_getElem?_odd {α : Type} :
    ∀ (a b : List α) (i : Nat), a.length = b.length → i < b.length →
      (interleave a b)[2 * i + 1]? = b[i]? := by
  intro a
  induction a with
  | nil => intro b i hlen hi; rw [← hlen] at hi; simp at hi
  | cons x as ih =>
    intro b i hlen hi
    cases b with
    | nil => simp at hi
    | cons y bs =>
      cases i with
      | zero => simp [interleave]
      | succ j =>
        have h2 : 2 * (j + 1) + 1 = (2 * j + 1) + 1 + 1 := by omega
        rw [h2]
        simp only [interleave, List.getElem?_cons_succ]
        exact ih bs j (by simpa using hlen) (by simpa using hi)

/-- C1: for every pair of positive native sample rates, exactly one of
{None, Input, Output} is selected (each selection is equivalent to the
corresponding rate ordering); equal rates select `None` with
`target_rate = r_in`; differing rates resample the higher-rate stream with
`target_rate = min r_in r_out` and origin (source) rate `= max r_in r_out`. -/
theorem C1_rate_reconciliation (r_in r_out : Nat)
    (hin : 0 < r_in) (hout : 0 < r_out) :
    ((record_multiple_reconcile r_in r_out).1 = ResampleTargetStream.None ↔ r_in = r_out) ∧
    ((record_multiple_reconcile r_in r_out).1 = ResampleTargetStream.Output ↔ r_in < r_out) ∧
    ((record_multiple_reconcile r_in r_out).1 = ResampleTargetStream.Input ↔ r_out < r_in) ∧
    (r_in = r_out → (record_multiple_reconcile r_in r_out).2.1 = r_in) ∧
    (r_in ≠ r_out →
      (record_multiple_reconcile r_in r_out).2.1 = min r_in r_out ∧
      (record_multiple_reconcile r_in r_out).2.2 = max r_in r_out) := by
  unfold record_multiple_reconcile
  rcases Nat.lt_trichotomy r_in r_out with h | h | h
  · rw [Nat.compare_eq_lt.mpr h]
    simp only
    refine ⟨by simp; omega, by simp [h], by simp; omega, by omega, fun _ => ⟨by omega, by omega⟩⟩
  · rw [Nat.compare_eq_eq.mpr h]
    simp only
    refine ⟨by simp [h], by simp; omega, by simp; omega, by simp [h], by simp [h]⟩
  · rw [Nat.compare_eq_gt.mpr h]
    simp only
    refine ⟨by simp; omega, by simp; omega, by simp [h], by omega, fun _ => ⟨by omega, by omega⟩⟩

/-- Witness for C1 at the concrete rate pair (48000, 44100). -/
theorem C1_rate_reconciliation_witness :
    0 < 48000 ∧ 0 < 44100 ∧
    ((record_multiple_reconcile 48000 44100).1 = ResampleTargetStream.Input ↔ 44100 < 48000) :=
  ⟨by decide, by decide, (C1_rate_reconciliation 48000 44100 (by decide) (by decide)).2.2.1⟩

/-- C2: whenever the merge condition fires (some side holds at least
`target_rate` samples), the interleaved chunk has length exactly
`2 * target_rate`; its even positions are the input-side queue's samples in
FIFO order (equilibrium where the input side ran short) and its odd
positions are the output-side queue's samples in FIFO order (equilibrium
where the output side ran short). -/
theorem C2_merge_chunk_interleaving {α : Type} (eqv : α) (q_in q_out : List α)
    (target_rate : Nat)
    (hfire : target_rate ≤ q_in.length ∨ target_rate ≤ q_out.length) :
    (merge_chunk q_in q_out target_rate eqv).length = 2 * target_rate ∧
    (∀ i < target_rate,
      (merge_chunk q_in q_out target_rate eqv)[2 * i]? =
        if i < q_in.length then q_in[i]? else some eqv) ∧
    (∀ i < target_rate,
      (merge_chunk q_in q_out target_rate eqv)[2 * i + 1]? =
        if i < q_out.length then q_out[i]? else some eqv) := by
  clear hfire
  unfold merge_chunk
  refine ⟨?_, ?_, ?_⟩
  · rw [interleave_length]
    simp [pop_slice_filled_length]
  · intro i hi
    rw [interleave_getElem?_even _ _ i
      (by rw [pop_slice_filled_length, pop_slice_filled_length])
      (by rw [pop_slice_filled_length]; exact hi)]
    exact pop_slice_filled_getElem? q_in target_rate eqv i hi
  · intro i hi
    rw [interleave_getElem?_odd _ _ i
      (by rw [pop_slice_filled_length, pop_slice_filled_length])
      (by rw [pop_slice_filled_length]; exact hi)]
    exact pop_slice_filled_getElem? q_out target_rate eqv i hi

/-- Witness for C2: a merge with `target_rate = 3`, four input samples
queued and one output sample queued. -/
theorem C2_merge_chunk_interleaving_witness :
    ((3 : Nat) ≤ [10, 20, 30, 40].length ∨ (3 : Nat) ≤ [7].length) ∧
    (merge_chunk [10, 20, 30, 40] [7] 3 (0 : Int)).length = 2 * 3 ∧
    (merge_chunk [10, 20, 30, 40] [7] 3 (0 : Int))[2 * 1]? = some 20 ∧
    (merge_chunk [10, 20, 30, 40] [7] 3 (0 : Int))[2 * 2 + 1]? = some 0 := by
  have h := C2_merge_chunk_interleaving (0 : Int) [10, 20, 30, 40] [7] 3 (Or.inl (by decide))
  refine ⟨Or.inl (by decide), h.1, ?_, ?_⟩
  · rw [h.2.1 1 (by decide)]; decide
  · rw [h.2.2 2 (by decide)]; decide

/-! ## Recording session state machine (`mod.rs`, `helpers.rs`)

The `Recorder` struct's fields; the mutex around the recording signal is
modelled by its boolean content, with `try_lock` failure modelled as an
explicit input to `get_is_recording`. Device and configuration queries
(cpal) are external collaborators, modelled as a deterministic environment
of query results. -/

/-- The ten cpal sample formats dispatched by `record_multiple_expansion!`,
plus the non-exhaustive fallback arm (`sf => Err(...)`). -/
inductive SampleFormat where
  | i8 | i16 | i32 | i64 | u8 | u16 | u32 | u64 | f32 | f64
  /-- Any other (unsupported) format: the macro's fallback arm. -/
  | unsupported
deriving DecidableEq, Repr

/-- Byte width reported by `cpal::SampleFormat::sample_size()` (only ever
used after dispatch succeeded, so the fallback value is irrelevant). -/
def SampleFormat.sample_size : SampleFormat → Nat
  | .i8 => 1 | .i16 => 2 | .i32 => 4 | .i64 => 8
  | .u8 => 1 | .u16 => 2 | .u32 => 4 | .u64 => 8
  | .f32 => 4 | .f64 => 8
  | .unsupported => 0

/-- A device's default stream configuration. -/
structure StreamConfig where
  sample_rate : Nat
  channels : Nat
  sample_format : SampleFormat
deriving DecidableEq, Repr

/-- Deterministic results of the external cpal queries made by `start`:
device resolution and per-device default-config fetch. `none` models the
corresponding failure. -/
structure Env where
  input_device : Bool
  output_device : Bool
  default_input_config : Option StreamConfig
  default_output_config : Option StreamConfig
deriving DecidableEq, Repr

/-- The `Recorder` struct (`mod.rs`, lines 94-106): the recording-signal
mutex content and the three derived configuration fields. -/
structure RecorderState where
  recording_signal : Bool
  target_rate : Option Nat
  channels : Option Nat
  sample_size : Option Nat
deriving DecidableEq, Repr

/-- The constructor `Recorder::new` (`mod.rs`, lines 110-119). -/
def Recorder.new : RecorderState :=
  { recording_signal := false, target_rate := none, channels := none, sample_size := none }

/-- Model of `Recorder::get_is_recording` (`helpers.rs`, lines 38-51): on `try_lock`
failure it returns `true`; otherwise the signal's value. -/
def get_is_recording (lock_unavailable : Bool) (st : RecorderState) : Bool :=
  if lock_unavailable then true else st.recording_signal

/-- The `Config` returned by `get_config` (`helpers.rs`, lines 11-15). -/
structure Config where
  sample_rate : Nat
  channels : Nat
  sample_size : Nat
deriving DecidableEq, Repr

/-- Model of `Recorder::get_config` (`helpers.rs`, lines 54-81). -/
def get_config (st : RecorderState) : Except String Config :=
  match st.target_rate with
  | none => .error "Sample rate not set"
  | some sample_rate =>
    match st.channels with
    | none => .error "Channels not set"
    | some channels =>
      match st.sample_size with
      | none => .error "Sample size not set"
      | some sample_size => .ok { sample_rate, channels, sample_size }

/-- Model of `Recorder::prepare` (`helpers.rs`, lines 86-126), non-macOS path: the
idle check, then setting the signal and resetting the derived fields. -/
def prepare (st : RecorderState) : Except String RecorderState :=
  if st.recording_signal then .error "Recording already in progress"
  else .ok { recording_signal := true, sample_size := none, channels := none, target_rate := none }

/-- Model of `Recorder::stop` (`mod.rs`, lines 126-148), non-macOS path: flips the
signal to false and clears `target_rate` (and nothing else). -/
def stop (st : RecorderState) : RecorderState :=
  { st with recording_signal := false, target_rate := none }

/-- Model of `Recorder::record_single_device` (`record_single_device.rs`): fetches
the default input config, populates the derived fields and spawns the
capture thread (always reaching `Ok(sync_rx)` once the fields are set). -/
def record_single_device (env : Env) (st : RecorderState) :
    Except String Unit × RecorderState :=
  match env.default_input_config with
  | none => (.error "Failed to get default input config", st)
  | some config =>
    (.ok (), { st with
        target_rate := some config.sample_rate,
        channels := some config.channels,
        sample_size := some config.sample_format.sample_size })

/-- Model of `Recorder::record_multiple` (`record_multiple_spawner.rs`): re-fetches
both configs (deterministic queries, so the same results as in `start`),
reconciles the rates, populates the derived fields and dispatches to a
path function, which spawns the worker thread and returns the receiver. -/
def record_multiple (env : Env) (st : RecorderState) :
    Except String Unit × RecorderState :=
  match env.default_input_config with
  | none => (.error "Failed to get input config", st)
  | some input_config =>
    match env.default_output_config with
    | none => (.error "Failed to get output config", st)
    | some output_config =>
      let r := record_multiple_reconcile input_config.sample_rate output_config.sample_rate
      (.ok (), { st with
          target_rate := some r.2.1,
          channels := some 2,
          sample_size := some input_config.sample_format.sample_size })

/-- Model of `Recorder::start` (`mod.rs`, lines 156-236), non-macOS path: prepare,
resolve devices, fetch configs, dispatch on the sample-format pair via
`record_multiple_expansion!`. Returns the result paired with the
post-call recorder state. -/
def start (env : Env) (input_only : Bool) (st : RecorderState) :
    Except String Unit × RecorderState :=
  match prepare st with
  | .error _ => (.error "Failed to prepare recorder", st)
  | .ok st1 =>
    if env.input_device = false then (.error "No input device available", st1)
    else if input_only then record_single_device env st1
    else if env.output_device = false then (.error "No output device found", st1)
    else
      match env.default_input_config with
      | none => (.error "Failed to get input config", st1)
      | some input_config =>
        match env.default_output_config with
        | none => (.error "Failed to get output config", st1)
        | some output_config =>
          if input_config.sample_format = SampleFormat.unsupported ∨
             output_config.sample_format = SampleFormat.unsupported then
            (.error "Unsupported sample format", st1)
          else record_multiple env st1

/-- C3 as stated is false: a failing `start` (here: input-device resolution
failure after the idle check passed) returns an error but leaves the shared
recording signal `true`, and a subsequent `start` IS rejected as already
recording. -/
theorem C3_start_failure_not_idle_counterexample :
    (start ⟨false, false, none, none⟩ false Recorder.new).1 =
      Except.error "No input device available" ∧
    (start ⟨false, false, none, none⟩ false Recorder.new).2.recording_signal = true ∧
    (start ⟨false, false, none, none⟩ false
        (start ⟨false, false, none, none⟩ false Recorder.new).2).1 =
      Except.error "Failed to prepare recorder" :=
  ⟨rfl, rfl, rfl⟩

/-- C3 amended: for every failing invocation of `start` from an idle
session (so the failure occurs after the idle check passed), `start`
returns an error but the shared recording signal is left `true`; every
subsequent `start` (with any environment) is rejected with the prepare
failure until `stop` intervenes. -/
theorem C3_start_failure_keeps_signal (env : Env) (input_only : Bool)
    (st : RecorderState) (hidle : st.recording_signal = false)
    (e : String) (herr : (start env input_only st).1 = Except.error e) :
    (start env input_only st).2.recording_signal = true ∧
    ∀ (env2 : Env) (input_only2 : Bool),
      (start env2 input_only2 (start env input_only st).2).1 =
        Except.error "Failed to prepare recorder" := by
  have hprep : prepare st =
      Except.ok { recording_signal := true, sample_size := none,
                  channels := none, target_rate := none } := by
    simp [prepare, hidle]
  have hsig : (start env input_only st).2.recording_signal = true := by
    unfold start
    rw [hprep]
    rcases env with ⟨idev, odev, icfg, ocfg⟩
    cases idev <;> cases odev <;> cases input_only <;>
      rcases icfg with _ | ⟨ic⟩ <;> rcases ocfg with _ | ⟨oc⟩ <;>
      simp [record_single_device, record_multiple] <;>
      split <;> simp
  refine ⟨hsig, fun env2 input_only2 => ?_⟩
  generalize hst2 : (start env input_only st).2 = st2 at hsig
  unfold start prepare
  rw [hsig]
  simp

/-- Witness for C3 amended at a concrete environment whose output-config
fetch fails. -/
theorem C3_start_failure_keeps_signal_witness :
    (Recorder.new.recording_signal = false) ∧
    ((start ⟨true, true, some ⟨48000, 2, .f32⟩, none⟩ false Recorder.new).1 =
      Except.error "Failed to get output config") ∧
    (start ⟨true, true, some ⟨48000, 2, .f32⟩, none⟩ false Recorder.new).2.recording_signal
      = true :=
  ⟨rfl, rfl,
    (C3_start_failure_keeps_signal ⟨true, true, some ⟨48000, 2, .f32⟩, none⟩ false
      Recorder.new rfl "Failed to get output config" rfl).1⟩

/-- C6 as stated is false in one respect: the second `start` does return an
error and leaves the first session's state untouched, but the error is the
generic prepare failure, not the recording-in-progress error (prepare's
"Recording already in progress" is replaced by `start`, and the
`AudioRecorderError::RecordingInProgress` display text "Recording is
already in progress" is never surfaced). -/
theorem C6_double_start_error_identity_counterexample :
    (start ⟨true, true, some ⟨44100, 2, .f32⟩, some ⟨44100, 2, .f32⟩⟩ false
        { recording_signal := true, target_rate := some 44100,
          channels := some 2, sample_size := some 4 }).1 =
      Except.error "Failed to prepare recorder" ∧
    "Failed to prepare recorder" ≠ "Recording is already in progress" ∧
    "Failed to prepare recorder" ≠ "Recording already in progress" :=
  ⟨rfl, by decide, by decide⟩

/-- C6 amended: a second `start` while a session is active returns the
prepare-failure error (`start` reports "Failed to prepare recorder",
subsuming prepare's recording-in-progress rejection) and leaves the first
session's entire state — signal and derived configuration — unchanged. -/
theorem C6_double_start_rejected (env : Env) (input_only : Bool)
    (st : RecorderState) (hactive : st.recording_signal = true) :
    start env input_only st = (Except.error "Failed to prepare recorder", st) := by
  unfold start prepare
  rw [hactive]
  simp

/-- Witness for C6 amended: second `start` against an active session. -/
theorem C6_double_start_rejected_witness :
    start ⟨true, true, some ⟨44100, 2, .f32⟩, some ⟨44100, 2, .f32⟩⟩ true
        { recording_signal := true, target_rate := some 44100,
          channels := some 2, sample_size := some 4 } =
      (Except.error "Failed to prepare recorder",
        { recording_signal := true, target_rate := some 44100,
          channels := some 2, sample_size := some 4 }) :=
  C6_double_start_rejected _ true _ rfl

/-- C7 as stated is false: after a successful `stop`, `channels` and
`sample_size` still hold the previous session's values; only `target_rate`
is cleared. -/
theorem C7_stop_clears_config_counterexample :
    (stop { recording_signal := true, target_rate := some 44100,
            channels := some 2, sample_size := some 4 }).channels = some 2 ∧
    (stop { recording_signal := true, target_rate := some 44100,
            channels := some 2, sample_size := some 4 }).sample_size = some 4 ∧
    (stop { recording_signal := true, target_rate := some 44100,
            channels := some 2, sample_size := some 4 }).target_rate = none := by
  decide

/-- C7 amended: `stop` clears only `target_rate` among the derived fields;
`channels` and `sample_size` keep the previous session's values (they are
reset only by the next successful `prepare`). Because `get_config` checks
`target_rate` first, it nevertheless fails after every `stop`. -/
theorem C7_stop_clears_only_target_rate (st : RecorderState) :
    (stop st).target_rate = none ∧
    (stop st).channels = st.channels ∧
    (stop st).sample_size = st.sample_size ∧
    (stop st).recording_signal = false ∧
    get_config (stop st) = Except.error "Sample rate not set" := by
  refine ⟨rfl, rfl, rfl, rfl, ?_⟩
  simp [stop, get_config]

/-- C10: `get_is_recording` returns the signal value exactly when the
try-lock succeeds; a failed try-lock yields `true` unconditionally, so
`false` is reported only from an acquired lock over a false signal, and a
held lock makes an idle recorder report that recording is in progress. -/
theorem C10_get_is_recording_try_lock (lock_unavailable : Bool) (st : RecorderState) :
    (get_is_recording lock_unavailable st = false ↔
      lock_unavailable = false ∧ st.recording_signal = false) ∧
    get_is_recording true st = true ∧
    get_is_recording true Recorder.new = true := by
  cases lock_unavailable <;> simp [get_is_recording]

/-! ## Mono downmix (`helpers.rs`, lines 179-202)

`channels_to_mono` is generic over `T: Num + Copy + Sum + FromPrimitive`.
The numeric operations of the instantiating sample type are a parameter;
`from_usize` returns `none` where the Rust conversion yields `None` (so
`.unwrap()` panics). Panics are modelled as `none` results: the `%`-by-zero
panic, the `assert!` failure, and the `from_usize(..).unwrap()` panic that
occurs once per chunk inside the loop. -/

/-- Numeric operations of one native sample type: the `Num` zero, addition
(used by `Sum`), division, and the fallible `FromPrimitive::from_usize`. -/
structure SampleOps (α : Type) where
  zero : α
  add : α → α → α
  div : α → α → α
  fromUsize : Nat → Option α

/-- The `Sum` fold `chunk.iter().copied().sum::<T>()`. -/
def sampleSum {α : Type} (ops : SampleOps α) (chunk : List α) : α :=
  chunk.foldl ops.add ops.zero

/-- Fuelled splitting into chunks of `c` (the `stereo_data.chunks(channels)`
iterator); fuel `≥ l.length` suffices whenever `1 ≤ c`. -/
def chunksOfAux {α : Type} (c : Nat) : Nat → List α → List (List α)
  | 0, _ => []
  | _, [] => []
  | fuel + 1, l => l.take c :: chunksOfAux c fuel (l.drop c)

/-- Rust `l.chunks(c)` for a list whose length is a multiple of `c`. -/
def chunksOf {α : Type} (c : Nat) (l : List α) : List (List α) :=
  chunksOfAux c l.length l

/-- Per-chunk body of the loop: compute the chunk's sum and divide by
`T::from_usize(channels).unwrap()` (`none` models the unwrap panic). -/
def monoOfChunk {α : Type} (ops : SampleOps α) (channels : Nat) (chunk : List α) :
    Option α :=
  (ops.fromUsize channels).map fun d => ops.div (sampleSum ops chunk) d

/-- Evaluate the loop body over every chunk; the first panic aborts. -/
def mapChunks {α : Type} (ops : SampleOps α) (channels : Nat) :
    List (List α) → Option (List α)
  | [] => some []
  | chunk :: rest =>
    match monoOfChunk ops channels chunk with
    | none => none
    | some v =>
      match mapChunks ops channels rest with
      | none => none
      | some vs => some (v :: vs)

/-- Model of `Recorder::channels_to_mono` (`helpers.rs`, lines 179-202). `none`
models a panic: `stereo_data.len() % 0` panics for a zero channel count,
the `assert!` panics on a non-multiple length, and
`T::from_usize(channels).unwrap()` panics inside the loop when the channel
count is not representable in `T`. -/
def channels_to_mono {α : Type} (ops : SampleOps α) (stereo_data : List α)
    (channels : Nat) : Option (List α) :=
  if channels = 0 then none
  else if stereo_data.length % channels ≠ 0 then none
  else mapChunks ops channels (chunksOf channels stereo_data)

/-- Rust `i8` sample operations: wrapping addition, truncated division,
`from_usize` failing above `i8::MAX = 127`. -/
def i8Ops : SampleOps Int :=
  { zero := 0
    add := fun a b => (a + b + 128) % 256 - 128
    div := fun a b => Int.tdiv a b
    fromUsize := fun n => if n ≤ 127 then some (n : Int) else none }

/-- Rust `u8` sample operations: wrapping addition, truncated division,
`from_usize` failing above `u8::MAX = 255`. -/
def u8Ops : SampleOps Int :=
  { zero := 0
    add := fun a b => (a + b) % 256
    div := fun a b => Int.tdiv a b
    fromUsize := fun n => if n ≤ 255 then some (n : Int) else none }

theorem chunksOfAux_fuel_irrelevant {α : Type} (c : Nat) (hc : 1 ≤ c) :
    ∀ (f1 : Nat) (f2 : Nat) (l : List α), l.length ≤ f1 → l.length ≤ f2 →
      chunksOfAux c f1 l = chunksOfAux c f2 l := by
  intro f1
  induction f1 with
  | zero =>
    intro f2 l h1 _
    have : l = [] := List.length_eq_zero.mp (Nat.le_zero.mp h1)
    subst this
    cases f2 <;> rfl
  | succ f ih =>
    intro f2 l h1 h2
    cases l with
    | nil => cases f2 <;> rfl
    | cons x xs =>
      cases f2 with
      | zero => simp at h2
      | succ g =>
        show (x :: xs).take c :: chunksOfAux c f ((x :: xs).drop c) =
          (x :: xs).take c :: chunksOfAux c g ((x :: xs).drop c)
        have h1' : xs.length + 1 ≤ f + 1 := by simpa using h1
        have h2' : xs.length + 1 ≤ g + 1 := by simpa using h2
        rw [ih g ((x :: xs).drop c)
          (by simp only [List.length_drop, List.length_cons]; omega)
          (by simp only [List.length_drop, List.length_cons]; omega)]

theorem chunksOf_nil {α : Type} (c : Nat) : chunksOf c ([] : List α) = [] := by
  simp [chunksOf, chunksOfAux]

theorem chunksOf_cons_of_ne {α : Type} (c : Nat) (hc : 1 ≤ c) (l : List α)
    (hl : l ≠ []) : chunksOf c l = l.take c :: chunksOf c (l.drop c) := by
  unfold chunksOf
  cases l with
  | nil => exact absurd rfl hl
  | cons x xs =>
    show (x :: xs).take c :: chunksOfAux c (xs.length) ((x :: xs).drop c) =
      (x :: xs).take c :: chunksOfAux c ((x :: xs).drop c).length ((x :: xs).drop c)
    rw [chunksOfAux_fuel_irrelevant c hc xs.length ((x :: xs).drop c).length
      ((x :: xs).drop c)
      (by simp only [List.length_drop, List.length_cons]; omega) (le_refl _)]

theorem chunksOf_length {α : Type} (c : Nat) (hc : 1 ≤ c) :
    ∀ (k : Nat) (l : List α), l.length = c * k → (chunksOf c l).length = k := by
  intro k
  induction k with
  | zero =>
    intro l hl
    have : l = [] := List.length_eq_zero.mp (by omega)
    subst this
    simp [chunksOf_nil]
  | succ j ih =>
    intro l hl
    have hne : l ≠ [] := by
      intro h; subst h; simp at hl; omega
    rw [chunksOf_cons_of_ne c hc l hne]
    have : (l.drop c).length = c * j := by
      have hmul : c * (j + 1) = c * j + c := by ring
      simp only [List.length_drop]
      omega
    simp [ih (l.drop c) this]

theorem chunksOf_getElem? {α : Type} (c : Nat) (hc : 1 ≤ c) :
    ∀ (i k : Nat) (l : List α), l.length = c * k → i < k →
      (chunksOf c l)[i]? = some ((l.drop (c * i)).take c) := by
  intro i
  induction i with
  | zero =>
    intro k l hl hi
    have hne : l ≠ [] := by
      intro h; subst h; simp at hl; omega
    rw [chunksOf_cons_of_ne c hc l hne]
    simp
  | succ j ih =>
    intro k l hl hi
    have hne : l ≠ [] := by
      intro h; subst h; simp at hl; omega
    rw [chunksOf_cons_of_ne c hc l hne]
    rw [List.getElem?_cons_succ]
    cases k with
    | zero => omega
    | succ k' =>
      have hdl : (l.drop c).length = c * k' := by
        have hmul : c * (k' + 1) = c * k' + c := by ring
        simp only [List.length_drop]
        omega
      rw [ih k' (l.drop c) hdl (by omega)]
      rw [List.drop_drop]
      congr 3
      ring

theorem mapChunks_of_fromUsize_some {α : Type} (ops : SampleOps α) (channels : Nat)
    (d : α) (hd : ops.fromUsize channels = some d) :
    ∀ chunks : List (List α),
      mapChunks ops channels chunks =
        some (chunks.map fun chunk => ops.div (sampleSum ops chunk) d) := by
  intro chunks
  induction chunks with
  | nil => rfl
  | cons chunk rest ih =>
    simp [mapChunks, monoOfChunk, hd, ih]

theorem mapChunks_eq_none_iff {α : Type} (ops : SampleOps α) (channels : Nat) :
    ∀ chunks : List (List α),
      (mapChunks ops channels chunks = none ↔
        chunks ≠ [] ∧ ops.fromUsize channels = none) := by
  intro chunks
  induction chunks with
  | nil => simp [mapChunks]
  | cons chunk rest ih =>
    cases hfu : ops.fromUsize channels with
    | none => simp [mapChunks, monoOfChunk, hfu]
    | some d =>
      rw [mapChunks_of_fromUsize_some ops channels d hfu]
      simp [hfu]

theorem chunksOf_eq_nil_iff {α : Type} (c : Nat) (hc : 1 ≤ c) (l : List α) :
    chunksOf c l = [] ↔ l = [] := by
  cases l with
  | nil => simp [chunksOf_nil]
  | cons x xs =>
    rw [chunksOf_cons_of_ne c hc _ (by simp)]
    simp

/-- C4 as stated is false: with `i8` samples and a channel count of 128
(not representable in `i8`, so `T::from_usize(128).unwrap()` panics inside
the loop), a buffer of length `128 * 1` makes `channels_to_mono` panic
instead of returning `k = 1` samples. -/
theorem C4_mono_downmix_counterexample :
    (List.replicate 128 (0 : Int)).length = 128 * 1 ∧ (1 : Nat) ≤ 128 ∧
    channels_to_mono i8Ops (List.replicate 128 (0 : Int)) 128 = none := by
  refine ⟨by simp, by norm_num, ?_⟩
  decide

/-- C4 amended: for every sample type, every channel count `c ≥ 1` that is
representable in the sample type (`from_usize` succeeds — always true for
the float and wide integer types at device channel counts) and every
buffer of length `c * k`, `channels_to_mono` returns exactly `k` samples,
the `i`-th being the native-arithmetic sum of the `i`-th consecutive chunk
of `c` input samples divided (native division) by the converted channel
count. -/
theorem C4_mono_downmix {α : Type} (ops : SampleOps α) (c k : Nat) (data : List α)
    (d : α) (hc : 1 ≤ c) (hlen : data.length = c * k)
    (hd : ops.fromUsize c = some d) :
    ∃ out, channels_to_mono ops data c = some out ∧ out.length = k ∧
      ∀ i < k, out[i]? =
        some (ops.div (sampleSum ops ((data.drop (c * i)).take c)) d) := by
  have hmod : data.length % c = 0 := by
    rw [hlen]
    exact Nat.mul_mod_right c k
  refine ⟨(chunksOf c data).map fun chunk => ops.div (sampleSum ops chunk) d, ?_, ?_, ?_⟩
  · unfold channels_to_mono
    rw [if_neg (by omega), if_neg (by simp [hmod])]
    exact mapChunks_of_fromUsize_some ops c d hd (chunksOf c data)
  · rw [List.length_map]
    exact chunksOf_length c hc k data hlen
  · intro i hi
    rw [List.getElem?_map, chunksOf_getElem? c hc i k data hlen hi]
    rfl

/-- Witness for C4 amended: `i8` stereo data `[10, 20, 7, 5]`, two
channels, downmixed to `[15, 6]`. -/
theorem C4_mono_downmix_witness :
    ((1 : Nat) ≤ 2 ∧ ([10, 20, 7, 5] : List Int).length = 2 * 2 ∧
      i8Ops.fromUsize 2 = some 2) ∧
    (∃ out, channels_to_mono i8Ops [10, 20, 7, 5] 2 = some out ∧ out.length = 2 ∧
      ∀ i < 2, out[i]? =
        some (i8Ops.div (sampleSum i8Ops (([10, 20, 7, 5] : List Int).drop (2 * i) |>.take 2))
          2)) ∧
    channels_to_mono i8Ops [10, 20, 7, 5] 2 = some [15, 6] :=
  ⟨⟨by norm_num, by decide, by decide⟩,
    C4_mono_downmix i8Ops 2 2 [10, 20, 7, 5] 2 (by norm_num) (by decide) (by decide),
    by decide⟩

/-- C9 as stated is false in its second half: with `u8` samples and a
channel count of 256 (not representable in `u8`), a buffer whose length is
an exact multiple of the channel count still panics, at
`T::from_usize(256).unwrap()`. -/
theorem C9_downmix_panic_counterexample :
    (List.replicate 256 (0 : Int)).length % 256 = 0 ∧ (1 : Nat) ≤ 256 ∧
    channels_to_mono u8Ops (List.replicate 256 (0 : Int)) 256 = none := by
  refine ⟨by simp, by norm_num, ?_⟩
  decide

/-- C9 amended: for every channel count `c ≥ 1`, `channels_to_mono` panics
exactly when the buffer length is not a multiple of `c`, or the buffer is
non-empty and `c` is not representable in the sample type
(`from_usize` fails); in particular every non-multiple length panics, and
every multiple-length buffer returns normally whenever `from_usize`
succeeds. -/
theorem C9_downmix_panic_condition {α : Type} (ops : SampleOps α) (data : List α)
    (c : Nat) (hc : 1 ≤ c) :
    channels_to_mono ops data c = none ↔
      data.length % c ≠ 0 ∨ (data ≠ [] ∧ ops.fromUsize c = none) := by
  unfold channels_to_mono
  rw [if_neg (by omega)]
  by_cases hmod : data.length % c = 0
  · rw [if_neg (by simp [hmod])]
    rw [mapChunks_eq_none_iff]
    rw [ne_eq, chunksOf_eq_nil_iff c hc]
    simp [hmod]
  · simp [hmod]

/-- Witness for C9 amended: three `i8` samples with two channels — a
non-multiple length, which panics at the `assert!`. -/
theorem C9_downmix_panic_condition_witness :
    (1 : Nat) ≤ 2 ∧
    (channels_to_mono i8Ops [1, 2, 3] 2 = none ↔
      ([1, 2, 3] : List Int).length % 2 ≠ 0 ∨
        (([1, 2, 3] : List Int) ≠ [] ∧ i8Ops.fromUsize 2 = none)) ∧
    channels_to_mono i8Ops [1, 2, 3] 2 = none :=
  ⟨by norm_num, C9_downmix_panic_condition i8Ops [1, 2, 3] 2 (by norm_num), by decide⟩

/-! ## Ring-buffer provisioning in the resampling paths
(`multiple_w_resampler.rs`, lines 58-68, and `common.rs`, lines 9-10) -/

/-- The constant `RESAMPLER_CHUNK_SIZE` (`common.rs`). -/
def RESAMPLER_CHUNK_SIZE : Nat := 44100

/-- The value `RESAMPLER_CHUNK_SIZE * 2` bound to `buffer_size` — the capacity passed to
`HeapRb::new` for each ring buffer of the resampling paths. -/
def resampler_buffer_size : Nat := RESAMPLER_CHUNK_SIZE * 2

/-- The capacities of the three ring buffers created by
`with_input_resampler` / `with_output_resampler`: `ring_output`,
`ring_input` and `ring_resampler`, all sized `buffer_size`. -/
def resampler_ring_capacities : List Nat :=
  [resampler_buffer_size, resampler_buffer_size, resampler_buffer_size]

/-- C8 as stated is false: with device rates 48000 and 96000 Hz the
reconciler picks `target_rate = 48000`, and every one of the three ring
buffers has capacity `88200 < 2 * 48000`. -/
theorem C8_ring_capacity_counterexample :
    (record_multiple_reconcile 48000 96000).2.1 = 48000 ∧
    ∀ cap ∈ resampler_ring_capacities,
      cap < 2 * (record_multiple_reconcile 48000 96000).2.1 := by
  decide

/-- C8 amended: each of the three ring buffers has the fixed capacity
`2 * RESAMPLER_CHUNK_SIZE = 88200` samples, which is at least
`2 * target_rate` exactly when the reconciled target rate (the lower of
the two device rates) is at most `RESAMPLER_CHUNK_SIZE = 44100` Hz — true
for common device pairs (e.g. 44100/48000) but not when both devices run
above 44100 Hz. -/
theorem C8_ring_capacity (r_in r_out : Nat) (cap : Nat)
    (hcap : cap ∈ resampler_ring_capacities) :
    2 * (record_multiple_reconcile r_in r_out).2.1 ≤ cap ↔
      (record_multiple_reconcile r_in r_out).2.1 ≤ RESAMPLER_CHUNK_SIZE := by
  have hc : cap = 2 * RESAMPLER_CHUNK_SIZE := by
    simp [resampler_ring_capacities, resampler_buffer_size] at hcap
    simp [hcap, resampler_buffer_size]
    ring
  subst hc
  constructor <;> intro h <;> omega

/-- Witness for C8 amended: the 44100/48000 pair fits within the first
(output-side) ring buffer. -/
theorem C8_ring_capacity_witness :
    resampler_buffer_size ∈ resampler_ring_capacities ∧
    (2 * (record_multiple_reconcile 44100 48000).2.1 ≤ resampler_buffer_size ↔
      (record_multiple_reconcile 44100 48000).2.1 ≤ RESAMPLER_CHUNK_SIZE) ∧
    2 * (record_multiple_reconcile 44100 48000).2.1 ≤ resampler_buffer_size :=
  ⟨by decide, C8_ring_capacity 44100 48000 resampler_buffer_size (by decide), by decide⟩

/-! ## Exact binary32 arithmetic over explicit fractions

`multiple_wo_resampler.rs` computes the latency in `f32`:
`let latency_frames = (150.0 / 1_000.0) * config.sample_rate.0 as f32;`
`let latency_samples = latency_frames as usize * config.channels as usize;`
Every value reached here is nonnegative and lies well inside the binary32
normal range, so IEEE-754 round-to-nearest-even on the 24-bit significand
models each operation exactly. The values are carried as explicit
unreduced fractions of naturals, so every step is plain natural-number
arithmetic and evaluates inside the kernel. -/

/-- An exact nonnegative rational `num / den` (kept unreduced). -/
structure Frac where
  num : Nat
  den : Nat
deriving DecidableEq, Repr

/-- Exact product of two fractions. -/
def Frac.mul (a b : Frac) : Frac := ⟨a.num * b.num, a.den * b.den⟩

/-- Floor `⌊f⌋`, the truncation performed by Rust's `as usize` on a nonnegative
float. -/
def Frac.floor (f : Frac) : Nat := f.num / f.den

/-- Exact product with `2 ^ e` for an integer exponent. -/
def Frac.mulPow2 (f : Frac) (e : ℤ) : Frac :=
  if 0 ≤ e then ⟨f.num * 2 ^ e.toNat, f.den⟩ else ⟨f.num, f.den * 2 ^ (-e).toNat⟩

/-- Fuelled base-2 logarithm (`⌊log₂ n⌋` for `n ≥ 1`); fuel `n` suffices. -/
def natLog2Aux : Nat → Nat → Nat
  | 0, _ => 0
  | fuel + 1, n => if n < 2 then 0 else natLog2Aux fuel (n / 2) + 1

/-- Base-2 logarithm on `Nat`, kernel-reducible. -/
def natLog2 (n : Nat) : Nat := natLog2Aux n n

/-- Floor `⌊log₂ f⌋` for fractions `f > 2⁻³⁰` (every value reached by the
latency computation satisfies this). -/
def Frac.floorLog2 (f : Frac) : ℤ := (natLog2 (f.num * 2 ^ 30 / f.den) : ℤ) - 30

/-- Round a nonnegative fraction to the nearest natural, ties to even. -/
def Frac.roundHalfEven (f : Frac) : Nat :=
  let n := f.num / f.den
  let r := f.num % f.den
  if 2 * r < f.den then n
  else if f.den < 2 * r then n + 1
  else if n % 2 = 0 then n else n + 1

/-- Round a positive fraction to the nearest binary32 value (ties to
even): snap to the significand grid of spacing `2 ^ (⌊log₂ f⌋ - 23)`. -/
def f32round (f : Frac) : Frac :=
  if f.num = 0 then ⟨0, 1⟩
  else
    let e : ℤ := f.floorLog2 - 23
    Frac.mulPow2 ⟨(f.mulPow2 (-e)).roundHalfEven, 1⟩ e

/-- The expression `(150.0 / 1_000.0) * config.sample_rate.0 as f32` evaluated in `f32`
(`multiple_wo_resampler.rs`, line 51). -/
def latency_frames (sample_rate : Nat) : Frac :=
  f32round ((f32round ⟨150, 1000⟩).mul (f32round ⟨sample_rate, 1⟩))

/-- The expression `latency_frames as usize * config.channels as usize`
(`multiple_wo_resampler.rs`, line 52); the `as usize` cast truncates. -/
def latency_samples (sample_rate channels : Nat) : Nat :=
  (latency_frames sample_rate).floor * channels

/-- Modelled from the spec: the claimed latency-sample count
`floor(0.150 * sample_rate) * channel_count`, with `0.150` exact. -/
def latency_samples_spec (sample_rate channels : Nat) : Nat :=
  (Frac.mk (150 * sample_rate) 1000).floor * channels

/-! ## Passthrough synchronizer pre-fill (`multiple_wo_resampler.rs`,
lines 51-76) and the shared queue's delivery behaviour -/

/-- A `HeapRb` ring buffer: fixed capacity, FIFO content. -/
structure HeapRb (α : Type) where
  capacity : Nat
  buf : List α
deriving DecidableEq, Repr

/-- Model of `producer.try_push`: appends unless full (full means producer-side
drop — the push returns an error which the callback only logs). -/
def try_push {α : Type} (rb : HeapRb α) (x : α) : HeapRb α × Bool :=
  if rb.buf.length < rb.capacity then ({ rb with buf := rb.buf ++ [x] }, true)
  else (rb, false)

/-- Model of `consumer.try_pop`: removes and returns the oldest sample, if any. -/
def try_pop {α : Type} (rb : HeapRb α) : HeapRb α × Option α :=
  match rb.buf with
  | [] => (rb, none)
  | x :: rest => ({ rb with buf := rest }, some x)

/-- The queue as built by `without_resampler` before either capture stream
is built or started: `HeapRb::new(latency_samples * 2)` followed by the
pre-fill loop pushing `latency_samples` equilibrium samples. -/
def without_resampler_prefill {α : Type} (eqv : α) (sample_rate channels : Nat) :
    HeapRb α :=
  (List.range (latency_samples sample_rate channels)).foldl
    (fun rb _ => (try_push rb eqv).1)
    { capacity := latency_samples sample_rate channels * 2, buf := [] }

/-- Interleaving of the two capture callbacks acting on the shared queue:
the output-side callback pushes normalized samples, the input-side
callback pops one sample per input sample (substituting the equilibrium
value on underrun) and delivers it as the output-side half of a pair. -/
inductive QEvent (α : Type) where
  /-- A `producer.try_push(sample)` from the output-side callback. -/
  | push (x : α)
  /-- A `consumer.try_pop()` from the input-side callback; the popped sample
  (or the equilibrium substitute) is delivered to the consumer. -/
  | popDeliver
deriving DecidableEq, Repr

/-- One callback event: the queue and the list of output-side samples
delivered so far. -/
def syncStep {α : Type} (eqv : α) (s : HeapRb α × List α) (e : QEvent α) :
    HeapRb α × List α :=
  match e with
  | .push x => ((try_push s.1 x).1, s.2)
  | .popDeliver =>
    match try_pop s.1 with
    | (rb', some v) => (rb', s.2 ++ [v])
    | (rb', none) => (rb', s.2 ++ [eqv])

/-- Run a sequence of callback events from an initial queue. -/
def runSync {α : Type} (eqv : α) (init : HeapRb α) (events : List (QEvent α)) :
    HeapRb α × List α :=
  events.foldl (syncStep eqv) (init, [])

theorem foldl_try_push_spec {α : Type} (eqv : α) :
    ∀ (n : Nat) (rb : HeapRb α), rb.buf.length + n ≤ rb.capacity →
      (List.range n).foldl (fun s _ => (try_push s eqv).1) rb =
        ⟨rb.capacity, rb.buf ++ List.replicate n eqv⟩ := by
  intro n
  induction n with
  | zero =>
    intro rb _
    simp
  | succ m ih =>
    intro rb hcap
    rw [List.range_succ, List.foldl_append]
    rw [ih rb (by omega)]
    simp only [List.foldl_cons, List.foldl_nil]
    unfold try_push
    rw [if_pos (by simp; omega)]
    simp [List.replicate_succ']

theorem without_resampler_prefill_eq {α : Type} (eqv : α) (sample_rate channels : Nat) :
    without_resampler_prefill eqv sample_rate channels =
      ⟨latency_samples sample_rate channels * 2,
        List.replicate (latency_samples sample_rate channels) eqv⟩ := by
  unfold without_resampler_prefill
  rw [foldl_try_push_spec eqv _ _ (by simp; omega)]
  simp

/-- Invariant of the passthrough synchronizer: enough samples have been
seen to cover the latency pre-fill, the queue's first `L - delivered`
entries are equilibrium, and every delivered output-side sample among the
first `L` is equilibrium. -/
def SyncInv {α : Type} (eqv : α) (L : Nat) (s : HeapRb α × List α) : Prop :=
  L ≤ s.1.buf.length + s.2.length ∧
  (∀ i, i < L - s.2.length → ∀ v, s.1.buf[i]? = some v → v = eqv) ∧
  (∀ i, i < L → ∀ v, s.2[i]? = some v → v = eqv)

theorem syncStep_preserves {α : Type} (eqv : α) (L : Nat)
    (s : HeapRb α × List α) (e : QEvent α) (h : SyncInv eqv L s) :
    SyncInv eqv L (syncStep eqv s e) := by
  obtain ⟨h1, h2, h3⟩ := h
  cases e with
  | push x =>
    show SyncInv eqv L ((try_push s.1 x).1, s.2)
    unfold try_push
    by_cases hfull : s.1.buf.length < s.1.capacity
    · rw [if_pos hfull]
      show SyncInv eqv L (⟨s.1.capacity, s.1.buf ++ [x]⟩, s.2)
      refine ⟨by simp; omega, ?_, h3⟩
      intro i hi v hv
      dsimp only at hi hv
      have hlt : i < s.1.buf.length := by omega
      rw [List.getElem?_append, if_pos hlt] at hv
      exact h2 i hi v hv
    · rw [if_neg hfull]
      exact ⟨h1, h2, h3⟩
  | popDeliver =>
    show SyncInv eqv L (match try_pop s.1 with
      | (rb', some v) => (rb', s.2 ++ [v])
      | (rb', none) => (rb', s.2 ++ [eqv]))
    unfold try_pop
    cases hbuf : s.1.buf with
    | nil =>
      rw [hbuf] at h1
      simp only [hbuf]
      refine ⟨by simp at h1 ⊢; omega, ?_, ?_⟩
      · intro i _ v hv
        rw [hbuf] at hv
        simp at hv
      · intro i hi v hv
        by_cases hlt : i < s.2.length
        · rw [List.getElem?_append, if_pos hlt] at hv
          exact h3 i hi v hv
        · rw [List.getElem?_append, if_neg hlt] at hv
          rcases Nat.lt_or_ge (i - s.2.length) 1 with hj | hj
          · have hz : i - s.2.length = 0 := by omega
            rw [hz] at hv
            simpa using hv.symm
          · rw [List.getElem?_eq_none (by simpa using hj)] at hv
            cases hv
    | cons y rest =>
      rw [hbuf] at h1
      simp only [hbuf]
      refine ⟨by simp at h1 ⊢; omega, ?_, ?_⟩
      · intro i hi v hv
        have hnext : i + 1 < L - s.2.length := by simp at hi ⊢; omega
        have hv' : s.1.buf[i + 1]? = some v := by
          rw [hbuf, List.getElem?_cons_succ]
          exact hv
        exact h2 (i + 1) hnext v hv'
      · intro i hi v hv
        by_cases hlt : i < s.2.length
        · rw [List.getElem?_append, if_pos hlt] at hv
          exact h3 i hi v hv
        · rw [List.getElem?_append, if_neg hlt] at hv
          rcases Nat.lt_or_ge (i - s.2.length) 1 with hj | hj
          · have hz : i - s.2.length = 0 := by omega
            rw [hz] at hv
            have hvy : v = y := by simpa using hv.symm
            subst hvy
            refine h2 0 (by omega) v ?_
            rw [hbuf]
            simp
          · rw [List.getElem?_eq_none (by simpa using hj)] at hv
            cases hv

theorem foldl_syncStep_inv {α : Type} (eqv : α) (L : Nat) :
    ∀ (events : List (QEvent α)) (s : HeapRb α × List α), SyncInv eqv L s →
      SyncInv eqv L (events.foldl (syncStep eqv) s) := by
  intro events
  induction events with
  | nil => intro s h; exact h
  | cons e rest ih =>
    intro s h
    exact ih (syncStep eqv s e) (syncStep_preserves eqv L s e h)

/-- At every common audio rate the `f32` latency computation agrees with
the exact `floor(0.150 * rate) * channels` formula. -/
theorem latency_samples_agrees_at_standard_rates :
    ∀ r ∈ [8000, 11025, 16000, 22050, 32000, 44100, 48000, 88200, 96000, 176400, 192000],
      latency_samples r 2 = latency_samples_spec r 2 := by
  decide

/-- C5 as stated is false in its latency formula: the code computes the
latency in `f32` arithmetic, and at the (extreme but `u32`-valid) input
rate 16770006 Hz with one channel the queue is pre-filled with 2515501
equilibrium samples, while `floor(0.150 * sample_rate) * channel_count`
is 2515500. -/
theorem C5_latency_formula_counterexample :
    (without_resampler_prefill (0 : Int) 16770006 1).buf.length = 2515501 ∧
    latency_samples_spec 16770006 1 = 2515500 ∧
    (2515501 : Nat) ≠ 2515500 := by
  refine ⟨?_, by decide, by decide⟩
  rw [without_resampler_prefill_eq]
  simp only [List.length_replicate]
  decide

/-- C5 amended: with `latency_samples` computed in `f32` as
`trunc((150.0/1000.0) * rate as f32) * channel_count` — which coincides
with `floor(0.150 * rate) * channel_count` at all standard audio rates but
not at every `u32` rate — the shared queue is created with capacity
exactly twice `latency_samples`, exactly `latency_samples` equilibrium
samples are pushed before either capture stream is built or started, and
under every interleaving of the two capture callbacks the first
`latency_samples` output-side values delivered to the consumer are
equilibrium. -/
theorem C5_passthrough_prefill (α : Type) (eqv : α) (sample_rate channels : Nat)
    (events : List (QEvent α)) :
    (without_resampler_prefill eqv sample_rate channels).capacity =
      2 * latency_samples sample_rate channels ∧
    (without_resampler_prefill eqv sample_rate channels).buf =
      List.replicate (latency_samples sample_rate channels) eqv ∧
    ∀ i, i < latency_samples sample_rate channels → ∀ v,
      (runSync eqv (without_resampler_prefill eqv sample_rate channels) events).2[i]? =
        some v → v = eqv := by
  have hpre := without_resampler_prefill_eq eqv sample_rate channels
  refine ⟨by rw [hpre]; dsimp only; omega, by rw [hpre], ?_⟩
  have hinv : SyncInv eqv (latency_samples sample_rate channels)
      (without_resampler_prefill eqv sample_rate channels, []) := by
    refine ⟨by rw [hpre]; simp, ?_, by simp⟩
    intro i hi v hv
    rw [hpre] at hv
    simp only at hv
    rw [List.getElem?_replicate] at hv
    by_cases hlt : i < latency_samples sample_rate channels
    · rw [if_pos hlt] at hv
      exact (Option.some_inj.mp hv).symm
    · rw [if_neg hlt] at hv
      cases hv
  have hfinal := foldl_syncStep_inv eqv (latency_samples sample_rate channels) events
    (without_resampler_prefill eqv sample_rate channels, []) hinv
  exact hfinal.2.2

/-- Witness for C5 amended at rate 20 Hz, one channel (latency 3), with a
concrete callback interleaving: the first three delivered output-side
samples are the equilibrium padding, the fourth is the first real pushed
sample. -/
theorem C5_passthrough_prefill_witness :
    latency_samples 20 1 = 3 ∧
    (without_resampler_prefill (0 : Int) 20 1).capacity = 2 * latency_samples 20 1 ∧
    (without_resampler_prefill (0 : Int) 20 1).buf =
      List.replicate (latency_samples 20 1) (0 : Int) ∧
    (runSync (0 : Int) (without_resampler_prefill (0 : Int) 20 1)
        [QEvent.popDeliver, QEvent.push 7, QEvent.popDeliver,
          QEvent.popDeliver, QEvent.popDeliver]).2 = [0, 0, 0, 7] := by
  have h := C5_passthrough_prefill Int 0 20 1
    [QEvent.popDeliver, QEvent.push 7, QEvent.popDeliver,
      QEvent.popDeliver, QEvent.popDeliver]
  exact ⟨by decide, h.1, h.2.1, by decide⟩

end AudioRecorder
